import Mathlib

/-!
# duck-chat-cli: the session core of `main.go`

A shallow embedding of the chat session of `src/main.go` (`Chat`, `NewChat`,
`Chat.Fetch`, `Chat.FetchStream`, `Chat.Redo`, `InitChat`, `modelMap`) and the
properties of the session state machine and of the stream decoding loop.

Conventions of the embedding.

* Go strings are modelled by `String`; the only string operations of the
  source that look inside a string (`strings.HasPrefix`, `strings.TrimPrefix`
  with the ASCII marker `data: `) are defined on the character list.
* The pointer `*Chat` becomes explicit state passing: every operation takes the
  session and returns the new session.
* The HTTP transport (`http.Client.Do`) is an input: a function from the request
  that was built to either a transport error or a response.
* `encoding/json.Unmarshal` into `struct { Message string }` is an input of the
  decoding loop (`unmarshal`), so that the theorems hold for whatever the library
  does; `jsonUnmarshalMessage` is an executable model of it used to run the loop
  on concrete feeds.
* The goroutine of `FetchStream` and its unbuffered channel are a deterministic
  machine: the goroutine runs until it blocks in `stream <- m` or returns; a
  receive of the consumer takes the pending fragment and lets it run on.
-/

namespace DuckChat

/-! ## Constants -/

def statusURL : String := "https://duckduckgo.com/duckchat/v1/status"
def chatURL : String := "https://duckduckgo.com/duckchat/v1/chat"
def statusHeaders : String := "1"

/-- The Go constant `http.StatusOK`. -/
def StatusOK : Nat := 200

/-! ## Models and aliases -/

def GPT4Mini : String := "gpt-4o-mini"
def Claude3 : String := "claude-3-haiku-20240307"
def Llama : String := "meta-llama/Meta-Llama-3.1-70B-Instruct-Turbo"
def Mixtral : String := "mistralai/Mixtral-8x7B-Instruct-v0.1"

def GPT4MiniAlias : String := "gpt-4o-mini"
def Claude3Alias : String := "claude-3-haiku"
def LlamaAlias : String := "llama"
def MixtralAlias : String := "mixtral"

/-- The map `modelMap`, read as Go reads a map: a key that is absent gives the
zero value of `Model`, the empty string. -/
def modelMap (a : String) : String :=
  if a = GPT4MiniAlias then GPT4Mini
  else if a = Claude3Alias then Claude3
  else if a = LlamaAlias then Llama
  else if a = MixtralAlias then Mixtral
  else ""

/-! ## Data model -/

deriving instance DecidableEq for Except

/-- The struct `Message`. -/
structure Message where
  Content : String
  Role : String
deriving DecidableEq, Repr

/-- The struct `ChatPayload`. -/
structure ChatPayload where
  Model : String
  Messages : List Message
deriving DecidableEq, Repr

/-- The struct `Chat`, without the stateless `Client`. -/
structure Chat where
  OldVqd : String
  NewVqd : String
  Model : String
  Messages : List Message
deriving DecidableEq, Repr

/-- An outgoing request: method, URL, the headers set on it, and for the chat
request the payload that `json.Marshal` serialises into the body. -/
structure Request where
  Method : String
  URL : String
  Header : List (String × String)
  Payload : Option ChatPayload
deriving DecidableEq, Repr

/-- What the program reads of an `*http.Response`: the status, the value of
`resp.Header.Get("x-vqd-4")` (empty when the header is absent), the body as
`io.ReadAll` returns it, the lines that `bufio.Scanner` hands out before `Scan`
returns false (at the end of the body, at a failed read, or at a line longer than
the buffer of the scanner), and the error `scanner.Err()` reports after that, if
any. -/
structure Response where
  StatusCode : Nat
  Status : String
  Vqd : String
  Body : String
  Lines : List String
  ScanErr : Option String
deriving DecidableEq, Repr

/-- The transport `Client.Do`: a transport error or a response. -/
abbrev Transport := Request → Except String Response

/-- The function `NewChat`. -/
def NewChat (vqd : String) (model : String) : Chat :=
  { OldVqd := vqd, NewVqd := vqd, Model := model, Messages := [] }

/-! ## Strings -/

/-- The function `strings.HasPrefix`. -/
def HasPrefix (s pre : String) : Bool :=
  pre.data.isPrefixOf s.data

/-- The function `strings.TrimPrefix`. -/
def TrimPrefix (s pre : String) : String :=
  if HasPrefix s pre then String.mk (s.data.drop pre.data.length) else s

/-! ## Fetch -/

/-- The request `Chat.Fetch` builds, from the session after the user message was
appended. -/
def chatRequest (c : Chat) : Request :=
  { Method := "POST", URL := chatURL,
    Header := [("x-vqd-4", c.NewVqd), ("Content-Type", "application/json"),
               ("Accept", "text/event-stream")],
    Payload := some { Model := c.Model, Messages := c.Messages } }

/-- The error text of a rejected chat request (`fmt.Errorf` at the status check). -/
def fetchError (r : Response) : String :=
  toString r.StatusCode ++ ": Failed to send message. " ++ r.Status ++ ". Body: " ++ r.Body

/-- The method `Chat.Fetch`: the user message is appended first, then the request
is sent; a transport error and a status other than 200 give an error. Marshalling
a payload of strings and building a request for the constant URL cannot fail. -/
def Fetch (tr : Transport) (c : Chat) (content : String) : Chat × Except String Response :=
  let c1 : Chat := { c with Messages := c.Messages ++ [{ Content := content, Role := "user" }] }
  match tr (chatRequest c1) with
  | .error e => (c1, .error ("error sending request: " ++ e))
  | .ok resp =>
    if resp.StatusCode ≠ StatusOK then (c1, .error (fetchError resp))
    else (c1, .ok resp)

/-! ## FetchStream: the goroutine and its channel -/

/-- The terminator line of the event feed. -/
def doneLine : String := "data: [DONE]"

/-- The marker of an event line. -/
def dataMarker : String := "data: "

/-- Where the goroutine of `FetchStream` stands when it cannot run further:
blocked in `stream <- frag` with the lines not yet scanned and the builder `text`
(which already holds `frag`), or returned, with the stream closed. -/
inductive Worker where
  | sending (frag : String) (rest : List String) (text : String)
  | closed
deriving DecidableEq, Repr

/-- The goroutine together with the session it shares with the caller and the
lines it has logged. -/
structure Stream where
  chat : Chat
  worker : Worker
  log : List String
deriving DecidableEq, Repr

/-- The last three statements of the goroutine: the tokens are rotated and the
assistant message with the text built up is appended. -/
def finalise (resp : Response) (c : Chat) (text : String) : Chat :=
  { c with OldVqd := c.NewVqd, NewVqd := resp.Vqd,
           Messages := c.Messages ++ [{ Content := text, Role := "assistant" }] }

/-- The statements after the scanning loop: the scanner error is logged if there
is one, the session is finalised, and the deferred calls close the stream. -/
def finish (resp : Response) (c : Chat) (text : String) (log : List String) : Stream :=
  let log1 := match resp.ScanErr with
    | some e => log ++ ["Error reading response body: " ++ e]
    | none => log
  { chat := finalise resp c text, worker := .closed, log := log1 }

/-- The goroutine from the head of the loop `for scanner.Scan()`, with `lines`
still to be scanned, until it blocks on the channel or returns. -/
def run (unmarshal : String → Except String String) (resp : Response) (c : Chat) :
    List String → String → List String → Stream
  | [], text, log => finish resp c text log
  | line :: rest, text, log =>
    if line = doneLine then finish resp c text log
    else if HasPrefix line dataMarker then
      match unmarshal (TrimPrefix line dataMarker) with
      | .error e => run unmarshal resp c rest text (log ++ ["Error unmarshaling data: " ++ e])
      | .ok m =>
        if m ≠ "" then
          { chat := c, worker := .sending m rest (text ++ m), log := log }
        else run unmarshal resp c rest text log
    else run unmarshal resp c rest text log

/-- The method `Chat.FetchStream`: the error of `Fetch` is passed on; otherwise
the goroutine is started on the body of the response. -/
def FetchStream (unmarshal : String → Except String String) (tr : Transport) (c : Chat)
    (content : String) : Chat × Except String (Response × Stream) :=
  match Fetch tr c content with
  | (c1, .error e) => (c1, .error e)
  | (c1, .ok resp) => (c1, .ok (resp, run unmarshal resp c1 resp.Lines "" []))

/-- One receive on the channel (one round of `for chunk := range stream`): the
pending fragment, after which the goroutine runs on; `none` when the channel is
closed. -/
def recv (unmarshal : String → Except String String) (resp : Response) (s : Stream) :
    Option String × Stream :=
  match s.worker with
  | .sending frag rest text => (some frag, run unmarshal resp s.chat rest text s.log)
  | .closed => (none, s)

/-- The consumer after `k` receives: the fragments it got and the stream as it
stands then. -/
def recvN (unmarshal : String → Except String String) (resp : Response) :
    Nat → Stream → List String × Stream
  | 0, s => ([], s)
  | k + 1, s =>
    match recv unmarshal resp s with
    | (some frag, s1) =>
      let r := recvN unmarshal resp k s1
      (frag :: r.1, r.2)
    | (none, s1) => ([], s1)

/-- The lines the goroutine has not scanned yet. -/
def Worker.remaining : Worker → Nat
  | .sending _ rest _ => rest.length + 1
  | .closed => 0

/-- The loop `for chunk := range stream` run until the channel is closed: every
receive consumes at least one line, so as many receives as lines remain, and one
more, reach the close. -/
def drain (unmarshal : String → Except String String) (resp : Response) (s : Stream) :
    List String × Stream :=
  recvN unmarshal resp (s.worker.remaining + 1) s

/-- A send whose fragment sequence is consumed to the end, as the driver does:
the fragments printed and the session afterwards, or the error of `FetchStream`
with the session it leaves. -/
def sendAll (unmarshal : String → Except String String) (tr : Transport) (c : Chat)
    (content : String) : Chat × Except String (List String) :=
  match FetchStream unmarshal tr c content with
  | (c1, .error e) => (c1, .error e)
  | (_, .ok (resp, s)) =>
    let r := drain unmarshal resp s
    (r.2.chat, .ok r.1)

/-! ## Redo, model switch, InitChat -/

/-- The method `Chat.Redo`. -/
def Redo (c : Chat) : Chat :=
  let c1 : Chat := { c with NewVqd := c.OldVqd }
  if c1.Messages.length ≥ 2 then
    { c1 with Messages := c1.Messages.take (c1.Messages.length - 2) }
  else c1

/-- The model switch of the driver: `chat.Model = modelMap[modelAlias]`. -/
def setModel (c : Chat) (a : String) : Chat :=
  { c with Model := modelMap a }

/-- The request `InitChat` builds. -/
def statusRequest : Request :=
  { Method := "GET", URL := statusURL, Header := [("x-vqd-accept", statusHeaders)],
    Payload := none }

/-- The function `InitChat`. -/
def InitChat (tr : Transport) (model : String) : Except String Chat :=
  match tr statusRequest with
  | .error e => .error ("error sending request: " ++ e)
  | .ok resp =>
    if resp.StatusCode ≠ StatusOK then
      .error (toString resp.StatusCode ++ ": Failed to initialize chat. " ++ resp.Status)
    else if resp.Vqd = "" then
      .error "failed to get VQD from response headers"
    else .ok (NewChat resp.Vqd (modelMap model))

/-! ## A model of `json.Unmarshal` into `struct { Message string }`

The decoding loop takes the unmarshaller as an input. This section gives an
executable model of the library function for that one target type, after the
documented behaviour of `encoding/json`: the input must be one valid JSON value
surrounded by optional white space; `null` leaves the target untouched; an object
sets `Message` from every member whose key equals `message` under Unicode simple
case folding and whose value is a string (the last one wins, a `null` value is
skipped, any other value is a type error reported after the whole input was
read); any other top-level value is a type error. The nesting limit of the
library is not modelled, and the error texts are abbreviated. -/

/-- A JSON value. -/
inductive JVal where
  | null
  | bool (b : Bool)
  | num
  | str (s : List Char)
  | arr (xs : List JVal)
  | obj (kvs : List (List Char × JVal))

def isSpace (c : Char) : Bool :=
  c = ' ' || c = '\t' || c = '\r' || c = '\n'

def skipSpace : List Char → List Char
  | [] => []
  | c :: cs => if isSpace c then skipSpace cs else c :: cs

def hexVal (c : Char) : Option Nat :=
  if '0' ≤ c ∧ c ≤ '9' then some (c.toNat - '0'.toNat)
  else if 'a' ≤ c ∧ c ≤ 'f' then some (c.toNat - 'a'.toNat + 10)
  else if 'A' ≤ c ∧ c ≤ 'F' then some (c.toNat - 'A'.toNat + 10)
  else none

/-- Four hexadecimal digits, as `getu4` reads them after a backslash and `u`. -/
def hex4 (a b c d : Char) : Option Nat :=
  match hexVal a, hexVal b, hexVal c, hexVal d with
  | some x, some y, some z, some w => some (((x * 16 + y) * 16 + z) * 16 + w)
  | _, _, _, _ => none

/-- The output of a string literal with the replacement character for a high
surrogate that is still waiting for its low surrogate. -/
def flush (hi : Option Nat) (acc : List Char) : List Char :=
  match hi with
  | some _ => Char.ofNat 0xFFFD :: acc
  | none => acc

/-- The rest of a string literal after its opening quote: the decoded text and
the input after the closing quote. `hi` is an escaped high surrogate just read:
with an escaped low surrogate right after it, it is one character; any other
surrogate is the replacement character. -/
def parseString : Option Nat → List Char → List Char → Option (List Char × List Char)
  | _, [], _ => none
  | hi, '"' :: rest, acc => some ((flush hi acc).reverse, rest)
  | hi, '\\' :: 'u' :: a :: b :: c :: d :: rest, acc =>
    match hex4 a b c d with
    | none => none
    | some n =>
      if 0xD800 ≤ n ∧ n < 0xDC00 then parseString (some n) rest (flush hi acc)
      else if 0xDC00 ≤ n ∧ n < 0xE000 then
        match hi with
        | some h =>
          parseString none rest
            (Char.ofNat (0x10000 + (h - 0xD800) * 0x400 + (n - 0xDC00)) :: acc)
        | none => parseString none rest (Char.ofNat 0xFFFD :: acc)
      else parseString none rest (Char.ofNat n :: flush hi acc)
  | hi, '\\' :: e :: rest, acc =>
    if e = '"' then parseString none rest ('"' :: flush hi acc)
    else if e = '\\' then parseString none rest ('\\' :: flush hi acc)
    else if e = '/' then parseString none rest ('/' :: flush hi acc)
    else if e = 'b' then parseString none rest (Char.ofNat 8 :: flush hi acc)
    else if e = 'f' then parseString none rest (Char.ofNat 12 :: flush hi acc)
    else if e = 'n' then parseString none rest ('\n' :: flush hi acc)
    else if e = 'r' then parseString none rest ('\r' :: flush hi acc)
    else if e = 't' then parseString none rest ('\t' :: flush hi acc)
    else none
  | hi, c :: rest, acc =>
    if c.toNat < 0x20 then none else parseString none rest (c :: flush hi acc)

def skipDigits : List Char → List Char
  | [] => []
  | c :: cs => if c.isDigit then skipDigits cs else c :: cs

/-- At least one digit, then the input after the digits. -/
def digits1 : List Char → Option (List Char)
  | c :: cs => if c.isDigit then some (skipDigits cs) else none
  | [] => none

def parseExp (cs : List Char) : Option (List Char) :=
  match cs with
  | e :: rest =>
    if e = 'e' || e = 'E' then
      match rest with
      | s :: rest1 => if s = '+' || s = '-' then digits1 rest1 else digits1 rest
      | [] => none
    else some cs
  | [] => some cs

def parseFrac (cs : List Char) : Option (List Char) :=
  match cs with
  | '.' :: rest => (digits1 rest).bind parseExp
  | _ => parseExp cs

/-- A number without its sign: the input after it. -/
def parseNat (cs : List Char) : Option (List Char) :=
  match cs with
  | '0' :: rest => parseFrac rest
  | c :: rest => if c.isDigit then parseFrac (skipDigits rest) else none
  | [] => none

def parseNumber (cs : List Char) : Option (List Char) :=
  match cs with
  | '-' :: rest => parseNat rest
  | _ => parseNat cs

mutual

/-- One JSON value at the head of the input (white space already skipped). -/
def parseValue : Nat → List Char → Option (JVal × List Char)
  | 0, _ => none
  | fuel + 1, cs =>
    match cs with
    | 'n' :: 'u' :: 'l' :: 'l' :: rest => some (.null, rest)
    | 't' :: 'r' :: 'u' :: 'e' :: rest => some (.bool true, rest)
    | 'f' :: 'a' :: 'l' :: 's' :: 'e' :: rest => some (.bool false, rest)
    | '"' :: rest => (parseString none rest []).map (fun r => (.str r.1, r.2))
    | '[' :: rest =>
      match skipSpace rest with
      | ']' :: rest1 => some (.arr [], rest1)
      | rest1 => (parseElems fuel rest1).map (fun r => (.arr r.1, r.2))
    | '{' :: rest =>
      match skipSpace rest with
      | '}' :: rest1 => some (.obj [], rest1)
      | rest1 => (parseMembers fuel rest1).map (fun r => (.obj r.1, r.2))
    | _ => (parseNumber cs).map (fun rest => (.num, rest))

/-- The elements of a non-empty array up to and including the closing bracket. -/
def parseElems : Nat → List Char → Option (List JVal × List Char)
  | 0, _ => none
  | fuel + 1, cs =>
    match parseValue fuel cs with
    | none => none
    | some (v, rest) =>
      match skipSpace rest with
      | ']' :: rest1 => some ([v], rest1)
      | ',' :: rest1 =>
        (parseElems fuel (skipSpace rest1)).map (fun r => (v :: r.1, r.2))
      | _ => none

/-- The members of a non-empty object up to and including the closing brace. -/
def parseMembers : Nat → List Char → Option (List (List Char × JVal) × List Char)
  | 0, _ => none
  | fuel + 1, cs =>
    match cs with
    | '"' :: rest =>
      match parseString none rest [] with
      | none => none
      | some (k, rest1) =>
        match skipSpace rest1 with
        | ':' :: rest2 =>
          match parseValue fuel (skipSpace rest2) with
          | none => none
          | some (v, rest3) =>
            match skipSpace rest3 with
            | '}' :: rest4 => some ([(k, v)], rest4)
            | ',' :: rest4 =>
              (parseMembers fuel (skipSpace rest4)).map (fun r => ((k, v) :: r.1, r.2))
            | _ => none
        | _ => none
    | _ => none

end

/-- The whole input as one JSON value; every call consumes a character, so the
length of the input, and one more, is fuel enough. -/
def parseJSON (cs : List Char) : Option JVal :=
  match parseValue (cs.length + 1) (skipSpace cs) with
  | some (v, rest) => if skipSpace rest = [] then some v else none
  | none => none

/-- Unicode simple case folding on the letters of `message`: the upper-case ASCII
letters, and the long s, which folds to `s`. -/
def foldChar (c : Char) : Char :=
  if 'A' ≤ c ∧ c ≤ 'Z' then Char.ofNat (c.toNat + 32)
  else if c.toNat = 0x17F then 's'
  else c

/-- Whether a key of the object selects the field tagged `message`. -/
def keyMatches (k : List Char) : Bool :=
  k.map foldChar = "message".data

/-- The members of an object applied in order to the field `Message` (first
component) with the first type error met (second component). -/
def setMembers : List (List Char × JVal) → String × Option String → String × Option String
  | [], st => st
  | (k, v) :: kvs, (msg, err) =>
    if keyMatches k then
      match v with
      | .str s => setMembers kvs (String.mk s, err)
      | .null => setMembers kvs (msg, err)
      | _ =>
        setMembers kvs
          (msg, err.orElse (fun _ => some "json: cannot unmarshal value into Go struct field .message of type string"))
    else setMembers kvs (msg, err)

/-- A model of `json.Unmarshal([]byte(data), &messageData)` for a fresh
`messageData`: the error, or the value of `messageData.Message` afterwards. -/
def jsonUnmarshalMessage (data : String) : Except String String :=
  match parseJSON data.data with
  | none => .error "invalid JSON"
  | some .null => .ok ""
  | some (.obj kvs) =>
    match setMembers kvs ("", none) with
    | (msg, none) => .ok msg
    | (_, some e) => .error e
  | some _ => .error "json: cannot unmarshal value into Go value of type struct"


/-! ## The decoder in the words of the protocol -/

/-- The fragment one line of the feed carries: the `message` of a line that
starts with the marker and whose remainder unmarshals, when it is not empty. -/
def fragmentOf (unmarshal : String → Except String String) (line : String) : Option String :=
  if HasPrefix line dataMarker then
    match unmarshal (TrimPrefix line dataMarker) with
    | .ok m => if m = "" then none else some m
    | .error _ => none
  else none

/-- The fragments of a feed: those of the lines before the first terminator
line, in the order of the lines. -/
def specFragments (unmarshal : String → Except String String) (lines : List String) :
    List String :=
  (lines.takeWhile (fun l => decide (l ≠ doneLine))).filterMap (fragmentOf unmarshal)

/-- The concatenation of a list of texts, in order. -/
def concatAll : List String → String
  | [] => ""
  | s :: ss => s ++ concatAll ss

/-- The user message `Fetch` appends. -/
def userMessage (content : String) : Message := { Content := content, Role := "user" }

/-- The assistant message the goroutine appends. -/
def assistantMessage (text : String) : Message := { Content := text, Role := "assistant" }

/-- The messages of a list of exchanges: for each one the user message, then the
assistant message. -/
def exchanges : List (String × String) → List Message
  | [] => []
  | (u, a) :: rest => userMessage u :: assistantMessage a :: exchanges rest

/-- A run of the driver loop over a list of inputs, each with the transport
answer it meets, in which every send succeeds and is consumed to the end; `none`
as soon as a send fails. -/
def sendSeq (unmarshal : String → Except String String) :
    Chat → List (Transport × String) → Option Chat
  | c, [] => some c
  | c, (tr, content) :: rest =>
    match sendAll unmarshal tr c content with
    | (c1, .ok _) => sendSeq unmarshal c1 rest
    | (_, .error _) => none

/-- The sessions the driver can reach: from a successful `InitChat`, by a send
that fails or that succeeds and is consumed to the end, by `Redo`, and by a model
switch. -/
inductive Reachable (unmarshal : String → Except String String) : Chat → Prop where
  | init (tr : Transport) (model : String) (c : Chat) :
      InitChat tr model = .ok c → Reachable unmarshal c
  | send (c : Chat) (tr : Transport) (content : String) :
      Reachable unmarshal c → Reachable unmarshal (sendAll unmarshal tr c content).1
  | undo (c : Chat) : Reachable unmarshal c → Reachable unmarshal (Redo c)
  | model (c : Chat) (a : String) : Reachable unmarshal c → Reachable unmarshal (setModel c a)

/-- The success range of HTTP status codes, 200 to 299. -/
def is2xx (status : Nat) : Bool := decide (200 ≤ status ∧ status < 300)

/-! ## Concrete feeds and answers -/

/-- The feed of the decoder example. -/
def exampleFeed : List String :=
  ["data: \x7b\"message\":\"Hi\"\x7d", "data: \x7b\"message\":\" there\"\x7d", "data: [DONE]"]

/-- The feed of the decoder example with a malformed line in between. -/
def exampleFeedJunk : List String :=
  ["data: \x7b\"message\":\"Hi\"\x7d", "data: not-json",
   "data: \x7b\"message\":\" there\"\x7d",
   "data: [DONE]"]

/-- An accepted chat answer that streams the example feed. -/
def okResponse : Response :=
  { StatusCode := 200, Status := "200 OK", Vqd := "vqd-2", Body := "",
    Lines := exampleFeedJunk, ScanErr := none }

/-- A rejected chat answer. -/
def rejectedResponse : Response :=
  { StatusCode := 500, Status := "500 Internal Server Error", Vqd := "", Body := "oops",
    Lines := ["oops"], ScanErr := none }

/-- An answer with a status in the success range other than 200, with a token. -/
def noContentResponse : Response :=
  { StatusCode := 204, Status := "204 No Content", Vqd := "vqd-1", Body := "",
    Lines := [], ScanErr := none }

/-- A handshake answer that issues a token. -/
def statusResponse : Response :=
  { StatusCode := 200, Status := "200 OK", Vqd := "vqd-1", Body := "",
    Lines := [], ScanErr := none }

def okTransport : Transport := fun _ => .ok okResponse
def rejectTransport : Transport := fun _ => .ok rejectedResponse
def statusTransport : Transport := fun _ => .ok statusResponse

/-- A session as `InitChat` leaves it. -/
def freshChat : Chat := NewChat "vqd-1" Llama

/-- A session after one full exchange. -/
def oneExchange : Chat :=
  { OldVqd := "vqd-1", NewVqd := "vqd-2", Model := Llama,
    Messages := [userMessage "hello", assistantMessage "Hi there"] }

/-- The stream `FetchStream` returns for `hello` on the fresh session. -/
def helloStream : Stream :=
  run jsonUnmarshalMessage okResponse
    { freshChat with Messages := [userMessage "hello"] } okResponse.Lines "" []

/-- An accepted chat answer whose feed is the terminator line alone. -/
def doneOnlyResponse : Response :=
  { StatusCode := 200, Status := "200 OK", Vqd := "vqd-2", Body := "",
    Lines := ["data: [DONE]"], ScanErr := none }

/-- The stream `FetchStream` returns for `hello` on the fresh session when the
feed is the terminator line alone. -/
def doneOnlyStream : Stream :=
  run jsonUnmarshalMessage doneOnlyResponse
    { freshChat with Messages := [userMessage "hello"] } doneOnlyResponse.Lines "" []

/-! ## Lemmas on the decoding loop -/

theorem specFragments_done (um : String → Except String String) (rest : List String) :
    specFragments um (doneLine :: rest) = [] := by
  simp [specFragments]

theorem specFragments_skip (um : String → Except String String) (line : String)
    (rest : List String) (h1 : line ≠ doneLine) (h2 : fragmentOf um line = none) :
    specFragments um (line :: rest) = specFragments um rest := by
  simp [specFragments, List.takeWhile_cons, h1, List.filterMap_cons, h2]

theorem specFragments_yield (um : String → Except String String) (line m : String)
    (rest : List String) (h1 : line ≠ doneLine) (h2 : fragmentOf um line = some m) :
    specFragments um (line :: rest) = m :: specFragments um rest := by
  simp [specFragments, List.takeWhile_cons, h1, List.filterMap_cons, h2]

/-- The goroutine either returns, finalised, when the lines left carry no
fragment, or blocks on the first fragment they carry. -/
theorem run_cases (um : String → Except String String) (resp : Response) (c : Chat) :
    ∀ (lines : List String) (text : String) (log : List String),
      ((run um resp c lines text log).worker = .closed ∧
        (run um resp c lines text log).chat = finalise resp c text ∧
        specFragments um lines = []) ∨
      (∃ m rest log1,
        run um resp c lines text log =
          { chat := c, worker := .sending m rest (text ++ m), log := log1 } ∧
        specFragments um lines = m :: specFragments um rest ∧
        rest.length < lines.length) := by
  intro lines
  induction lines with
  | nil =>
    intro text log
    left
    simp [run, finish, specFragments]
  | cons line rest ih =>
    intro text log
    by_cases h1 : line = doneLine
    · left
      subst h1
      simp [run, finish, specFragments_done]
    · have skip : ∀ log1, fragmentOf um line = none →
          run um resp c (line :: rest) text log = run um resp c rest text log1 →
          ((run um resp c (line :: rest) text log).worker = .closed ∧
            (run um resp c (line :: rest) text log).chat = finalise resp c text ∧
            specFragments um (line :: rest) = []) ∨
          (∃ m rest1 log2,
            run um resp c (line :: rest) text log =
              { chat := c, worker := .sending m rest1 (text ++ m), log := log2 } ∧
            specFragments um (line :: rest) = m :: specFragments um rest1 ∧
            rest1.length < (line :: rest).length) := by
        intro log1 hf hr
        rw [hr, specFragments_skip um line rest h1 hf]
        rcases ih text log1 with h | ⟨m, rest1, log2, e1, e2, e3⟩
        · exact Or.inl h
        · exact Or.inr ⟨m, rest1, log2, e1, e2, by simp; omega⟩
      by_cases h2 : HasPrefix line dataMarker = true
      · cases h3 : um (TrimPrefix line dataMarker) with
        | error e =>
          exact skip (log ++ ["Error unmarshaling data: " ++ e])
            (by simp [fragmentOf, h2, h3]) (by simp [run, h1, h2, h3])
        | ok m =>
          by_cases h4 : m = ""
          · exact skip log (by simp [fragmentOf, h2, h3, h4]) (by simp [run, h1, h2, h3, h4])
          · right
            refine ⟨m, rest, log, by simp [run, h1, h2, h3, h4], ?_, by simp⟩
            exact specFragments_yield um line m rest h1 (by simp [fragmentOf, h2, h3, h4])
      · exact skip log (by simp [fragmentOf, h2]) (by simp [run, h1, h2])

theorem recvN_closed (um : String → Except String String) (resp : Response) (k : Nat)
    (s : Stream) (h : s.worker = .closed) : recvN um resp k s = ([], s) := by
  cases k with
  | zero => rfl
  | succ k => simp [recvN, recv, h]

theorem recvN_sending_step (um : String → Except String String) (resp : Response) (k : Nat)
    (c : Chat) (m : String) (rest : List String) (text : String) (log : List String) :
    recvN um resp (k + 1) { chat := c, worker := .sending m rest text, log := log } =
      (m :: (recvN um resp k (run um resp c rest text log)).1,
        (recvN um resp k (run um resp c rest text log)).2) := by
  simp [recvN, recv]

theorem concatAll_append (text m : String) (ms : List String) :
    text ++ m ++ concatAll ms = text ++ concatAll (m :: ms) := by
  simp [concatAll, String.append_assoc]

/-- A consumer that receives more often than lines are left gets every fragment
of those lines and finds the session finalised with the whole text. -/
theorem recvN_sending (um : String → Except String String) (resp : Response) (c : Chat) :
    ∀ (k : Nat) (rest : List String) (m text : String) (log : List String),
      rest.length < k →
      (recvN um resp (k + 1) { chat := c, worker := .sending m rest text, log := log }).1 =
          m :: specFragments um rest ∧
        (recvN um resp (k + 1)
            { chat := c, worker := .sending m rest text, log := log }).2.worker = .closed ∧
        (recvN um resp (k + 1)
            { chat := c, worker := .sending m rest text, log := log }).2.chat =
          finalise resp c (text ++ concatAll (specFragments um rest)) := by
  intro k
  induction k with
  | zero => intro rest m text log h; omega
  | succ k ih =>
    intro rest m text log h
    rw [recvN_sending_step]
    rcases run_cases um resp c rest text log with ⟨h1, h2, h3⟩ | ⟨m1, rest1, log1, e1, e2, e3⟩
    · rw [recvN_closed um resp (k + 1) _ h1, h3]
      simp [h1, h2, concatAll]
    · rw [e1, e2]
      have hk : rest1.length < k := by omega
      obtain ⟨a1, a2, a3⟩ := ih rest1 m1 (text ++ m1) log1 hk
      refine ⟨by rw [a1], a2, ?_⟩
      rw [a3, concatAll_append]

/-- The loop `for chunk := range stream` ends: it yields the fragments of the
lines left, in order, and leaves the stream closed and the session finalised
with the whole text. -/
theorem drain_run (um : String → Except String String) (resp : Response) (c : Chat)
    (lines : List String) (text : String) (log : List String) :
    (drain um resp (run um resp c lines text log)).1 = specFragments um lines ∧
      (drain um resp (run um resp c lines text log)).2.worker = .closed ∧
      (drain um resp (run um resp c lines text log)).2.chat =
        finalise resp c (text ++ concatAll (specFragments um lines)) := by
  rcases run_cases um resp c lines text log with ⟨h1, h2, h3⟩ | ⟨m1, rest1, log1, e1, e2, e3⟩
  · unfold drain
    rw [recvN_closed um resp _ _ h1, h3]
    simp [h1, h2, concatAll]
  · unfold drain
    rw [e1, e2]
    simp only [Worker.remaining]
    obtain ⟨a1, a2, a3⟩ :=
      recvN_sending um resp c (rest1.length + 1) rest1 m1 (text ++ m1) log1 (by omega)
    refine ⟨a1, a2, ?_⟩
    rw [a3, concatAll_append]

/-- The session `Fetch` leaves: the old one with the user message appended. -/
theorem Fetch_fst (tr : Transport) (c : Chat) (content : String) :
    (Fetch tr c content).1 = { c with Messages := c.Messages ++ [userMessage content] } := by
  unfold Fetch
  simp only [userMessage]
  split
  · rfl
  · split <;> rfl

/-- A send that succeeds and is consumed to the end: the fragments of the feed
are yielded and the session is the finalised one. -/
theorem sendAll_ok (um : String → Except String String) (tr : Transport) (c : Chat)
    (content : String) (resp : Response) (h : (Fetch tr c content).2 = .ok resp) :
    sendAll um tr c content =
      ({ OldVqd := c.NewVqd, NewVqd := resp.Vqd, Model := c.Model,
         Messages := c.Messages ++
           [userMessage content, assistantMessage (concatAll (specFragments um resp.Lines))] },
        .ok (specFragments um resp.Lines)) := by
  have h1 := Fetch_fst tr c content
  unfold sendAll FetchStream
  rcases hf : Fetch tr c content with ⟨c1, r⟩
  rw [hf] at h h1
  simp only at h h1
  subst h
  subst h1
  obtain ⟨a1, _, a3⟩ := drain_run um resp
    { c with Messages := c.Messages ++ [userMessage content] } resp.Lines "" []
  simp only [a1, a3, finalise, assistantMessage]
  simp

/-- A send that fails leaves the session `Fetch` left and yields nothing. -/
theorem sendAll_error (um : String → Except String String) (tr : Transport) (c : Chat)
    (content : String) (e : String) (h : (Fetch tr c content).2 = .error e) :
    sendAll um tr c content =
        ({ c with Messages := c.Messages ++ [userMessage content] }, .error e) ∧
      FetchStream um tr c content =
        ({ c with Messages := c.Messages ++ [userMessage content] }, .error e) := by
  have h1 := Fetch_fst tr c content
  unfold sendAll FetchStream
  rcases hf : Fetch tr c content with ⟨c1, r⟩
  rw [hf] at h h1
  simp only at h h1
  subst h
  simp [h1]

theorem exchanges_length (l : List (String × String)) : (exchanges l).length = 2 * l.length := by
  induction l with
  | nil => rfl
  | cons p rest ih =>
    obtain ⟨u, a⟩ := p
    simp [exchanges, ih]
    omega

/-- A run of successful sends appends one exchange per send to the transcript. -/
theorem sendSeq_messages (um : String → Except String String) :
    ∀ (calls : List (Transport × String)) (c0 c : Chat),
      sendSeq um c0 calls = some c →
      ∃ replies : List String, replies.length = calls.length ∧
        c.Messages = c0.Messages ++ exchanges ((calls.map Prod.snd).zip replies) := by
  intro calls
  induction calls with
  | nil =>
    intro c0 c h
    simp [sendSeq] at h
    subst h
    exact ⟨[], rfl, by simp [exchanges]⟩
  | cons call rest ih =>
    intro c0 c h
    obtain ⟨tr, content⟩ := call
    cases hf : (Fetch tr c0 content).2 with
    | error e =>
      rw [sendSeq, (sendAll_error um tr c0 content e hf).1] at h
      simp at h
    | ok resp =>
      rw [sendSeq, sendAll_ok um tr c0 content resp hf] at h
      simp only at h
      obtain ⟨replies, h1, h2⟩ := ih _ c h
      refine ⟨concatAll (specFragments um resp.Lines) :: replies, by simp [h1], ?_⟩
      rw [h2]
      simp [exchanges, List.zip]

/-- C1: starting from a freshly initialised session (empty transcript), after any
sequence of n sends that each succeed and are each consumed to the end, the
transcript has length exactly 2 * n and consists of n consecutive pairs of a user
message (with the text sent) and an assistant message, in that order. -/
theorem C1_transcript_pairs (um : String → Except String String) (vqd model : String)
    (calls : List (Transport × String)) (c : Chat)
    (h : sendSeq um (NewChat vqd model) calls = some c) :
    c.Messages.length = 2 * calls.length ∧
      ∃ replies : List String, replies.length = calls.length ∧
        c.Messages = exchanges ((calls.map Prod.snd).zip replies) := by
  obtain ⟨replies, h1, h2⟩ := sendSeq_messages um calls (NewChat vqd model) c h
  have h3 : c.Messages = exchanges ((calls.map Prod.snd).zip replies) := by
    rw [h2]
    simp [NewChat]
  refine ⟨?_, replies, h1, h3⟩
  rw [h3, exchanges_length]
  simp [h1]

theorem C1_transcript_pairs_witness :
    sendSeq jsonUnmarshalMessage (NewChat "vqd-1" Llama)
        [(okTransport, "hello"), (okTransport, "again")] =
      some { OldVqd := "vqd-2", NewVqd := "vqd-2", Model := Llama,
             Messages := exchanges [("hello", "Hi there"), ("again", "Hi there")] } ∧
    ((exchanges [("hello", "Hi there"), ("again", "Hi there")]).length = 2 * 2 ∧
      ∃ replies : List String, replies.length = 2 ∧
        exchanges [("hello", "Hi there"), ("again", "Hi there")] =
          exchanges (["hello", "again"].zip replies)) :=
  ⟨by decide,
    C1_transcript_pairs jsonUnmarshalMessage "vqd-1" Llama
      [(okTransport, "hello"), (okTransport, "again")]
      { OldVqd := "vqd-2", NewVqd := "vqd-2", Model := Llama,
        Messages := exchanges [("hello", "Hi there"), ("again", "Hi there")] } (by decide)⟩

/-- C2: if a send succeeds and its fragment sequence is consumed to the end, a
following `Redo` leaves the current token equal to its value before the send and
the transcript equal to the transcript before the send. -/
theorem C2_undo_after_send (um : String → Except String String) (tr : Transport)
    (c : Chat) (content : String) (c1 : Chat) (frags : List String)
    (h : sendAll um tr c content = (c1, .ok frags)) :
    (Redo c1).NewVqd = c.NewVqd ∧ (Redo c1).Messages = c.Messages := by
  cases hf : (Fetch tr c content).2 with
  | error e =>
    rw [(sendAll_error um tr c content e hf).1] at h
    simp at h
  | ok resp =>
    rw [sendAll_ok um tr c content resp hf] at h
    simp only [Prod.mk.injEq] at h
    obtain ⟨h1, _⟩ := h
    subst h1
    simp [Redo]

theorem C2_undo_after_send_witness :
    sendAll jsonUnmarshalMessage okTransport freshChat "hello" =
        (oneExchange, .ok ["Hi", " there"]) ∧
      ((Redo oneExchange).NewVqd = freshChat.NewVqd ∧
        (Redo oneExchange).Messages = freshChat.Messages) :=
  ⟨by decide,
    C2_undo_after_send jsonUnmarshalMessage okTransport freshChat "hello" oneExchange
      ["Hi", " there"] (by decide)⟩

/-- C3: for every session, `Redo` sets the current token to the previous token
and leaves the previous token and the model alone; the transcript afterwards is
the old transcript without its last two messages when it holds at least two, and
the old transcript otherwise. -/
theorem C3_redo (c : Chat) :
    (Redo c).NewVqd = c.OldVqd ∧ (Redo c).OldVqd = c.OldVqd ∧ (Redo c).Model = c.Model ∧
      (Redo c).Messages =
        if 2 ≤ c.Messages.length then c.Messages.dropLast.dropLast else c.Messages := by
  unfold Redo
  by_cases h : 2 ≤ c.Messages.length
  · simp [h, List.dropLast_eq_take, List.take_take]
    omega
  · simp [h]

theorem specFragments_cut (um : String → Except String String) (pre post : List String) :
    specFragments um (pre ++ doneLine :: post) = specFragments um pre := by
  induction pre with
  | nil => simp [specFragments]
  | cons line rest ih =>
    by_cases h1 : line = doneLine
    · subst h1
      simp [specFragments]
    · unfold specFragments at ih ⊢
      simp only [List.cons_append, List.takeWhile_cons, h1, ne_eq, not_false_eq_true,
        decide_True, if_true, List.filterMap_cons]
      rw [ih]

/-- C4: for every feed of lines, the consumer that reads the stream to its end
receives, in the order of the lines, exactly the non-empty messages of the lines
that start with the marker, whose remainder unmarshals, and that come before the
first terminator line, and then finds the stream closed; what follows a terminator
line changes nothing. The example feed yields `Hi` and ` there`, also with a
malformed line in between. -/
theorem C4_decoder :
    (∀ (um : String → Except String String) (resp : Response) (c : Chat),
      (drain um resp (run um resp c resp.Lines "" [])).1 =
          (resp.Lines.takeWhile (fun l => decide (l ≠ doneLine))).filterMap (fragmentOf um) ∧
        (drain um resp (run um resp c resp.Lines "" [])).2.worker = .closed) ∧
    (∀ (um : String → Except String String) (resp : Response) (c : Chat)
        (pre post : List String),
      (drain um resp (run um resp c (pre ++ doneLine :: post) "" [])).1 =
        (drain um resp (run um resp c pre "" [])).1) ∧
    (∀ (resp : Response) (c : Chat),
      (drain jsonUnmarshalMessage resp (run jsonUnmarshalMessage resp c exampleFeed "" [])).1 =
          ["Hi", " there"] ∧
        (drain jsonUnmarshalMessage resp
            (run jsonUnmarshalMessage resp c exampleFeedJunk "" [])).1 = ["Hi", " there"]) := by
  refine ⟨?_, ?_, ?_⟩
  · intro um resp c
    obtain ⟨a1, a2, _⟩ := drain_run um resp c resp.Lines "" []
    exact ⟨a1, a2⟩
  · intro um resp c pre post
    rw [(drain_run um resp c (pre ++ doneLine :: post) "" []).1,
      (drain_run um resp c pre "" []).1, specFragments_cut]
  · intro resp c
    rw [(drain_run jsonUnmarshalMessage resp c exampleFeed "" []).1,
      (drain_run jsonUnmarshalMessage resp c exampleFeedJunk "" []).1]
    exact ⟨by decide, by decide⟩

/-- C5: for every send that succeeds and is consumed to the end, whatever the
lines of the feed and whether or not the scanner reports a read error, the
previous token afterwards is the current token from before the send, the current
token is the token header of the response, and the transcript is the old one
followed by the user message and one assistant message whose content is the
concatenation, in order, of the fragments that were yielded. -/
theorem C5_finalisation (um : String → Except String String) (tr : Transport) (c : Chat)
    (content : String) (resp : Response) (h : (Fetch tr c content).2 = .ok resp) :
    ∃ frags : List String,
      (sendAll um tr c content).2 = .ok frags ∧
      (sendAll um tr c content).1.OldVqd = c.NewVqd ∧
      (sendAll um tr c content).1.NewVqd = resp.Vqd ∧
      (sendAll um tr c content).1.Model = c.Model ∧
      (sendAll um tr c content).1.Messages =
        c.Messages ++ [userMessage content, assistantMessage (concatAll frags)] := by
  rw [sendAll_ok um tr c content resp h]
  exact ⟨specFragments um resp.Lines, rfl, rfl, rfl, rfl, rfl⟩

theorem C5_finalisation_witness :
    (Fetch (fun _ => .ok { okResponse with ScanErr := some "unexpected EOF" }) freshChat
        "hello").2 = .ok { okResponse with ScanErr := some "unexpected EOF" } ∧
    ∃ frags : List String,
      (sendAll jsonUnmarshalMessage
          (fun _ => .ok { okResponse with ScanErr := some "unexpected EOF" }) freshChat
          "hello").2 = .ok frags ∧
      (sendAll jsonUnmarshalMessage
          (fun _ => .ok { okResponse with ScanErr := some "unexpected EOF" }) freshChat
          "hello").1.OldVqd = freshChat.NewVqd ∧
      (sendAll jsonUnmarshalMessage
          (fun _ => .ok { okResponse with ScanErr := some "unexpected EOF" }) freshChat
          "hello").1.NewVqd = "vqd-2" ∧
      (sendAll jsonUnmarshalMessage
          (fun _ => .ok { okResponse with ScanErr := some "unexpected EOF" }) freshChat
          "hello").1.Model = freshChat.Model ∧
      (sendAll jsonUnmarshalMessage
          (fun _ => .ok { okResponse with ScanErr := some "unexpected EOF" }) freshChat
          "hello").1.Messages =
        freshChat.Messages ++ [userMessage "hello", assistantMessage (concatAll frags)] :=
  ⟨by decide,
    C5_finalisation jsonUnmarshalMessage
      (fun _ => .ok { okResponse with ScanErr := some "unexpected EOF" }) freshChat "hello"
      { okResponse with ScanErr := some "unexpected EOF" } (by decide)⟩

/-- C6: if the chat answer has a status outside 200..299, `FetchStream` fails with
an error that carries the status and the body text and returns no stream, and the
session afterwards is the old one with exactly the new user message appended to
the transcript: both tokens and the model are unchanged. -/
theorem C6_rejected (um : String → Except String String) (tr : Transport) (c : Chat)
    (content : String) (resp : Response)
    (h : tr (chatRequest { c with Messages := c.Messages ++ [userMessage content] }) = .ok resp)
    (hs : is2xx resp.StatusCode = false) :
    FetchStream um tr c content =
      ({ OldVqd := c.OldVqd, NewVqd := c.NewVqd, Model := c.Model,
         Messages := c.Messages ++ [userMessage content] },
        .error (toString resp.StatusCode ++ ": Failed to send message. " ++ resp.Status ++
          ". Body: " ++ resp.Body)) := by
  have hne : resp.StatusCode ≠ StatusOK := by
    intro h200
    rw [h200] at hs
    simp [is2xx, StatusOK] at hs
  have hf : (Fetch tr c content).2 = .error (fetchError resp) := by
    unfold Fetch
    simp only [userMessage] at h
    simp [h, hne]
  exact (sendAll_error um tr c content _ hf).2

theorem C6_rejected_witness :
    rejectTransport
        (chatRequest { freshChat with Messages := freshChat.Messages ++ [userMessage "hello"] }) =
      .ok rejectedResponse ∧
    is2xx rejectedResponse.StatusCode = false ∧
    FetchStream jsonUnmarshalMessage rejectTransport freshChat "hello" =
      ({ OldVqd := freshChat.OldVqd, NewVqd := freshChat.NewVqd, Model := freshChat.Model,
         Messages := freshChat.Messages ++ [userMessage "hello"] },
        .error (toString rejectedResponse.StatusCode ++ ": Failed to send message. " ++
          rejectedResponse.Status ++ ". Body: " ++ rejectedResponse.Body)) :=
  ⟨rfl, by decide,
    C6_rejected jsonUnmarshalMessage rejectTransport freshChat "hello" rejectedResponse rfl
      (by decide)⟩

/-- While the goroutine is blocked on the channel it has not written to the
session. -/
theorem run_blocked_chat (um : String → Except String String) (resp : Response) (c : Chat)
    (lines : List String) (text : String) (log : List String)
    (h : (run um resp c lines text log).worker ≠ .closed) :
    (run um resp c lines text log).chat = c := by
  rcases run_cases um resp c lines text log with ⟨h1, _, _⟩ | ⟨m1, rest1, log1, e1, _, _⟩
  · exact absurd h1 h
  · rw [e1]

theorem recvN_blocked_chat (um : String → Except String String) (resp : Response) (c : Chat) :
    ∀ (k : Nat) (s : Stream), (s.worker ≠ .closed → s.chat = c) →
      (recvN um resp k s).2.worker ≠ .closed → (recvN um resp k s).2.chat = c := by
  intro k
  induction k with
  | zero =>
    intro s hs h
    exact hs h
  | succ k ih =>
    intro s hs h
    obtain ⟨chat, worker, log⟩ := s
    cases worker with
    | closed =>
      rw [recvN_closed um resp (k + 1) _ rfl] at h
      exact absurd rfl h
    | sending m rest text =>
      have hc : chat = c := hs (by simp)
      subst hc
      rw [recvN_sending_step] at h ⊢
      exact ih _ (run_blocked_chat um resp chat rest text log) h

/-- The tokens after `Redo`. -/
theorem Redo_tokens (c : Chat) : (Redo c).NewVqd = c.OldVqd ∧ (Redo c).OldVqd = c.OldVqd := by
  unfold Redo
  by_cases h : c.Messages.length ≥ 2 <;> simp [h]

/-- The transcript after `Redo` on a session that ends in one more message. -/
theorem Redo_after_user (c : Chat) (u : Message) :
    (Redo { c with Messages := c.Messages ++ [u] }).Messages =
      (if c.Messages = [] then [u] else c.Messages.dropLast) := by
  cases hc : c.Messages with
  | nil => simp [Redo, hc]
  | cons x xs =>
    simp only [Redo, hc, List.dropLast_eq_take]
    simp
    exact @List.take_append_of_le_length _ (x :: xs) [u] xs.length (by simp)

/-- Once the goroutine has returned, the consumer has received every fragment of
the lines and the session is finalised with the whole text. -/
theorem recvN_closed_chat (um : String → Except String String) (resp : Response) (c : Chat) :
    ∀ (k : Nat) (lines : List String) (text : String) (log : List String),
      (recvN um resp k (run um resp c lines text log)).2.worker = .closed →
      (recvN um resp k (run um resp c lines text log)).1 = specFragments um lines ∧
        (recvN um resp k (run um resp c lines text log)).2.chat =
          finalise resp c (text ++ concatAll (specFragments um lines)) := by
  intro k
  induction k with
  | zero =>
    intro lines text log h
    rcases run_cases um resp c lines text log with ⟨_, h2, h3⟩ | ⟨m1, rest1, log1, e1, _, _⟩
    · rw [h3]
      simp [recvN, h2, concatAll]
    · rw [e1] at h
      simp [recvN] at h
  | succ k ih =>
    intro lines text log h
    rcases run_cases um resp c lines text log with ⟨h1, h2, h3⟩ | ⟨m1, rest1, log1, e1, e2, _⟩
    · rw [recvN_closed um resp (k + 1) _ h1, h3]
      simp [h2, concatAll]
    · rw [e1, recvN_sending_step] at h ⊢
      obtain ⟨a1, a2⟩ := ih rest1 (text ++ m1) log1 h
      rw [e2]
      refine ⟨by rw [a1], ?_⟩
      rw [a2, concatAll_append]

/-- C7 (amended): if a send succeeds and the consumer stops after any number of
receives, the transcript holds the new user message in every case, so it is
longer than before the send. While the goroutine is still blocked handing over a
fragment, both tokens and the model are as before the send and the transcript is
the old one followed by exactly the new user message. When no fragment is left to
hand over, the goroutine has finalised all the same: the consumer has received
every fragment of the feed, the previous token is the current token from before
the send, the current token is the token of the response, and the assistant
message with the concatenation of the fragments received follows the user
message. -/
theorem C7_abandoned (um : String → Except String String) (tr : Transport) (c : Chat)
    (content : String) (resp : Response) (s : Stream)
    (h : (FetchStream um tr c content).2 = .ok (resp, s)) (k : Nat) :
    c.Messages.length < (recvN um resp k s).2.chat.Messages.length ∧
      ((recvN um resp k s).2.worker ≠ .closed →
        (recvN um resp k s).2.chat.NewVqd = c.NewVqd ∧
          (recvN um resp k s).2.chat.OldVqd = c.OldVqd ∧
          (recvN um resp k s).2.chat.Model = c.Model ∧
          (recvN um resp k s).2.chat.Messages = c.Messages ++ [userMessage content]) ∧
      ((recvN um resp k s).2.worker = .closed →
        (recvN um resp k s).1 = specFragments um resp.Lines ∧
          (recvN um resp k s).2.chat.NewVqd = resp.Vqd ∧
          (recvN um resp k s).2.chat.OldVqd = c.NewVqd ∧
          (recvN um resp k s).2.chat.Model = c.Model ∧
          (recvN um resp k s).2.chat.Messages =
            c.Messages ++
              [userMessage content, assistantMessage (concatAll (recvN um resp k s).1)]) := by
  have h1 := Fetch_fst tr c content
  unfold FetchStream at h
  rcases hf : Fetch tr c content with ⟨c1, r⟩
  rw [hf] at h h1
  simp only at h1
  cases r with
  | error e => simp at h
  | ok resp1 =>
    simp only [Except.ok.injEq, Prod.mk.injEq] at h
    obtain ⟨hr, hs⟩ := h
    subst hr
    subst hs
    have open_ : (recvN um resp1 k (run um resp1 c1 resp1.Lines "" [])).2.worker ≠ .closed →
        (recvN um resp1 k (run um resp1 c1 resp1.Lines "" [])).2.chat = c1 :=
      recvN_blocked_chat um resp1 c1 k _ (run_blocked_chat um resp1 c1 resp1.Lines "" [])
    have shut := recvN_closed_chat um resp1 c1 k resp1.Lines "" []
    refine ⟨?_, ?_, ?_⟩
    · by_cases hw : (recvN um resp1 k (run um resp1 c1 resp1.Lines "" [])).2.worker = .closed
      · rw [(shut hw).2, h1]
        simp [finalise]
      · rw [open_ hw, h1]
        simp
    · intro hw
      rw [open_ hw, h1]
      simp
    · intro hw
      obtain ⟨a1, a2⟩ := shut hw
      rw [a1, a2, h1]
      simp [finalise, assistantMessage]

theorem C7_abandoned_witness :
    (FetchStream jsonUnmarshalMessage okTransport freshChat "hello").2 =
        .ok (okResponse, helloStream) ∧
      (freshChat.Messages.length <
          (recvN jsonUnmarshalMessage okResponse 1 helloStream).2.chat.Messages.length ∧
        ((recvN jsonUnmarshalMessage okResponse 1 helloStream).2.worker ≠ .closed →
          (recvN jsonUnmarshalMessage okResponse 1 helloStream).2.chat.NewVqd =
              freshChat.NewVqd ∧
            (recvN jsonUnmarshalMessage okResponse 1 helloStream).2.chat.OldVqd =
              freshChat.OldVqd ∧
            (recvN jsonUnmarshalMessage okResponse 1 helloStream).2.chat.Model =
              freshChat.Model ∧
            (recvN jsonUnmarshalMessage okResponse 1 helloStream).2.chat.Messages =
              freshChat.Messages ++ [userMessage "hello"]) ∧
        ((recvN jsonUnmarshalMessage okResponse 1 helloStream).2.worker = .closed →
          (recvN jsonUnmarshalMessage okResponse 1 helloStream).1 =
              specFragments jsonUnmarshalMessage okResponse.Lines ∧
            (recvN jsonUnmarshalMessage okResponse 1 helloStream).2.chat.NewVqd =
              okResponse.Vqd ∧
            (recvN jsonUnmarshalMessage okResponse 1 helloStream).2.chat.OldVqd =
              freshChat.NewVqd ∧
            (recvN jsonUnmarshalMessage okResponse 1 helloStream).2.chat.Model =
              freshChat.Model ∧
            (recvN jsonUnmarshalMessage okResponse 1 helloStream).2.chat.Messages =
              freshChat.Messages ++
                [userMessage "hello",
                  assistantMessage
                    (concatAll (recvN jsonUnmarshalMessage okResponse 1 helloStream).1)])) :=
  ⟨by decide,
    C7_abandoned jsonUnmarshalMessage okTransport freshChat "hello" okResponse helloStream
      (by decide) 1⟩

/-- C7 as stated fails at every point where the consumer can stop before it
receives the close. On the fresh session the send of `hello` succeeds; after one
receive the second fragment is pending and the transcript holds one message where
it held none; after two receives both fragments are received, the close is not,
and the goroutine has rotated the current token and appended the assistant
message; with a feed of the terminator line alone the same has happened before
the first receive. -/
theorem C7_counterexample :
    ((FetchStream jsonUnmarshalMessage okTransport freshChat "hello").2 =
        .ok (okResponse, helloStream) ∧
      freshChat.Messages.length = 0 ∧ freshChat.NewVqd = "vqd-1") ∧
    ((recvN jsonUnmarshalMessage okResponse 1 helloStream).1 = ["Hi"] ∧
      (recvN jsonUnmarshalMessage okResponse 1 helloStream).2.worker =
        .sending " there" ["data: [DONE]"] "Hi there" ∧
      (recvN jsonUnmarshalMessage okResponse 1 helloStream).2.chat.Messages.length = 1 ∧
      ¬ ((recvN jsonUnmarshalMessage okResponse 1 helloStream).2.chat.Messages.length =
          freshChat.Messages.length)) ∧
    ((recvN jsonUnmarshalMessage okResponse 2 helloStream).1 = ["Hi", " there"] ∧
      (recvN jsonUnmarshalMessage okResponse 2 helloStream).2.chat.NewVqd = "vqd-2" ∧
      (recvN jsonUnmarshalMessage okResponse 2 helloStream).2.chat.Messages =
        [userMessage "hello", assistantMessage "Hi there"] ∧
      ¬ ((recvN jsonUnmarshalMessage okResponse 2 helloStream).2.chat.NewVqd =
          freshChat.NewVqd) ∧
      ¬ ((recvN jsonUnmarshalMessage okResponse 2 helloStream).2.chat.Messages.length =
          freshChat.Messages.length)) ∧
    ((FetchStream jsonUnmarshalMessage (fun _ => .ok doneOnlyResponse) freshChat "hello").2 =
        .ok (doneOnlyResponse, doneOnlyStream) ∧
      (recvN jsonUnmarshalMessage doneOnlyResponse 0 doneOnlyStream).1 = [] ∧
      (recvN jsonUnmarshalMessage doneOnlyResponse 0 doneOnlyStream).2.chat.NewVqd = "vqd-2" ∧
      (recvN jsonUnmarshalMessage doneOnlyResponse 0 doneOnlyStream).2.chat.Messages =
        [userMessage "hello", assistantMessage ""] ∧
      ¬ ((recvN jsonUnmarshalMessage doneOnlyResponse 0 doneOnlyStream).2.chat.NewVqd =
          freshChat.NewVqd) ∧
      ¬ ((recvN jsonUnmarshalMessage doneOnlyResponse 0 doneOnlyStream).2.chat.Messages.length =
          freshChat.Messages.length)) := by
  decide

/-- C8 (amended): after a send that fails, the transcript is the old one followed
by exactly the new user message and the tokens are unchanged; a `Redo` after it
sets the current token to the previous token and, when the old transcript was not
empty, removes the user message together with the last message of the old
transcript, and, when the old transcript was empty, leaves the user message in
place. In both cases the transcript after `Redo` differs from the transcript
before the send. -/
theorem C8_undo_after_failed_send (um : String → Except String String) (tr : Transport)
    (c : Chat) (content : String) (e : String)
    (h : (FetchStream um tr c content).2 = .error e) :
    (FetchStream um tr c content).1.Messages = c.Messages ++ [userMessage content] ∧
      (FetchStream um tr c content).1.NewVqd = c.NewVqd ∧
      (FetchStream um tr c content).1.OldVqd = c.OldVqd ∧
      (Redo (FetchStream um tr c content).1).NewVqd = c.OldVqd ∧
      (Redo (FetchStream um tr c content).1).OldVqd = c.OldVqd ∧
      (Redo (FetchStream um tr c content).1).Messages =
        (if c.Messages = [] then [userMessage content] else c.Messages.dropLast) ∧
      (Redo (FetchStream um tr c content).1).Messages ≠ c.Messages := by
  have hf : (Fetch tr c content).2 = .error e := by
    unfold FetchStream at h
    rcases hq : Fetch tr c content with ⟨c1, r⟩
    rw [hq] at h
    cases r with
    | error e1 =>
      simp only [Except.error.injEq] at h
      rw [h]
    | ok resp => simp at h
  rw [(sendAll_error um tr c content e hf).2]
  have hm := Redo_after_user c (userMessage content)
  refine ⟨rfl, rfl, rfl, (Redo_tokens _).1, (Redo_tokens _).2, hm, ?_⟩
  rw [hm]
  intro hx
  have hl := congrArg List.length hx
  cases hc : c.Messages with
  | nil => simp [hc] at hl
  | cons x xs => simp [hc] at hl

theorem C8_undo_after_failed_send_witness :
    (FetchStream jsonUnmarshalMessage rejectTransport oneExchange "more").2 =
        .error "500: Failed to send message. 500 Internal Server Error. Body: oops" ∧
      ((FetchStream jsonUnmarshalMessage rejectTransport oneExchange "more").1.Messages =
          oneExchange.Messages ++ [userMessage "more"] ∧
        (FetchStream jsonUnmarshalMessage rejectTransport oneExchange "more").1.NewVqd =
          oneExchange.NewVqd ∧
        (FetchStream jsonUnmarshalMessage rejectTransport oneExchange "more").1.OldVqd =
          oneExchange.OldVqd ∧
        (Redo (FetchStream jsonUnmarshalMessage rejectTransport oneExchange "more").1).NewVqd =
          oneExchange.OldVqd ∧
        (Redo (FetchStream jsonUnmarshalMessage rejectTransport oneExchange "more").1).OldVqd =
          oneExchange.OldVqd ∧
        (Redo (FetchStream jsonUnmarshalMessage rejectTransport oneExchange "more").1).Messages =
          (if oneExchange.Messages = [] then [userMessage "more"]
            else oneExchange.Messages.dropLast) ∧
        (Redo (FetchStream jsonUnmarshalMessage rejectTransport oneExchange "more").1).Messages ≠
          oneExchange.Messages) :=
  ⟨by decide,
    C8_undo_after_failed_send jsonUnmarshalMessage rejectTransport oneExchange "more"
      "500: Failed to send message. 500 Internal Server Error. Body: oops" (by decide)⟩

/-- C8 as stated fails: after a rejected send the transcript is not unchanged, and
`Redo` does not give back the transcript from before the send. On the fresh
session the user message stays; on a session with one exchange the earlier
assistant message is removed with it. -/
theorem C8_counterexample :
    ((FetchStream jsonUnmarshalMessage rejectTransport freshChat "hello").2 =
        .error "500: Failed to send message. 500 Internal Server Error. Body: oops" ∧
      freshChat.Messages = [] ∧
      (FetchStream jsonUnmarshalMessage rejectTransport freshChat "hello").1.Messages =
        [userMessage "hello"] ∧
      (Redo (FetchStream jsonUnmarshalMessage rejectTransport freshChat "hello").1).Messages =
        [userMessage "hello"] ∧
      ¬ ((FetchStream jsonUnmarshalMessage rejectTransport freshChat "hello").1.Messages =
          freshChat.Messages) ∧
      ¬ ((Redo (FetchStream jsonUnmarshalMessage rejectTransport freshChat "hello").1).Messages =
          freshChat.Messages)) ∧
    ((FetchStream jsonUnmarshalMessage rejectTransport oneExchange "more").2 =
        .error "500: Failed to send message. 500 Internal Server Error. Body: oops" ∧
      oneExchange.Messages = [userMessage "hello", assistantMessage "Hi there"] ∧
      (Redo (FetchStream jsonUnmarshalMessage rejectTransport oneExchange "more").1).Messages =
        [userMessage "hello"] ∧
      ¬ ((Redo (FetchStream jsonUnmarshalMessage rejectTransport oneExchange "more").1).Messages =
          oneExchange.Messages)) := by
  decide

/-- What `InitChat` returns when the transport answers. -/
theorem InitChat_ok_iff (tr : Transport) (model : String) (resp : Response)
    (h : tr statusRequest = .ok resp) (c : Chat) :
    InitChat tr model = .ok c ↔
      (resp.StatusCode = StatusOK ∧ resp.Vqd ≠ "") ∧ c = NewChat resp.Vqd (modelMap model) := by
  unfold InitChat
  rw [h]
  by_cases h1 : resp.StatusCode = StatusOK
  · by_cases h2 : resp.Vqd = ""
    · simp [h1, h2]
    · simp only [h1, h2, ne_eq, not_true_eq_false, if_false, Except.ok.injEq,
        not_false_eq_true, and_self, true_and]
      exact eq_comm
  · simp [h1]

/-- A session with fewer than two messages has equal tokens, in every session the
driver can reach. -/
theorem reachable_tokens (um : String → Except String String) (c : Chat)
    (h : Reachable um c) : c.Messages.length < 2 → c.NewVqd = c.OldVqd := by
  induction h with
  | init tr model c hi =>
    intro _
    unfold InitChat at hi
    split at hi
    · simp at hi
    · split at hi
      · simp at hi
      · split at hi
        · simp at hi
        · simp only [Except.ok.injEq] at hi
          subst hi
          rfl
  | send c tr content _ ih =>
    intro hl
    cases hf : (Fetch tr c content).2 with
    | error e =>
      rw [(sendAll_error um tr c content e hf).1] at hl ⊢
      simp only [List.length_append, List.length_singleton] at hl
      exact ih (by omega)
    | ok resp =>
      rw [sendAll_ok um tr c content resp hf] at hl
      simp at hl
  | undo c _ _ =>
    intro _
    rw [(Redo_tokens c).1, (Redo_tokens c).2]
  | model c a _ ih =>
    intro hl
    exact ih hl

/-- C9: in every session reachable from `InitChat` by sends (failed, or successful
and consumed to the end), `Redo` and model switches, if the transcript holds fewer
than two messages then `Redo` changes nothing: tokens, model and transcript stay
as they are. -/
theorem C9_redo_noop (um : String → Except String String) (c : Chat)
    (hr : Reachable um c) (hl : c.Messages.length < 2) : Redo c = c := by
  have ht := reachable_tokens um c hr hl
  have hn : ¬ (c.Messages.length ≥ 2) := by omega
  obtain ⟨o, n, m, ms⟩ := c
  simp only at ht hn
  subst ht
  simp [Redo, hn]

theorem C9_redo_noop_witness :
    Reachable jsonUnmarshalMessage
        (sendAll jsonUnmarshalMessage rejectTransport freshChat "hello").1 ∧
      (sendAll jsonUnmarshalMessage rejectTransport freshChat "hello").1.Messages.length < 2 ∧
      Redo (sendAll jsonUnmarshalMessage rejectTransport freshChat "hello").1 =
        (sendAll jsonUnmarshalMessage rejectTransport freshChat "hello").1 :=
  ⟨Reachable.send freshChat rejectTransport "hello"
      (Reachable.init statusTransport LlamaAlias freshChat (by decide)),
    by decide,
    C9_redo_noop jsonUnmarshalMessage
      (sendAll jsonUnmarshalMessage rejectTransport freshChat "hello").1
      (Reachable.send freshChat rejectTransport "hello"
        (Reachable.init statusTransport LlamaAlias freshChat (by decide)))
      (by decide)⟩

/-- C10 (amended): for every handshake answer, `InitChat` succeeds exactly when
the status is 200 and the token header is not empty; on success the session has
both tokens equal to the issued token, an empty transcript and the model the alias
maps to; otherwise `InitChat` returns an error and no session. -/
theorem C10_init (tr : Transport) (model : String) (resp : Response)
    (h : tr statusRequest = .ok resp) :
    ((∃ c, InitChat tr model = .ok c) ↔ (resp.StatusCode = 200 ∧ resp.Vqd ≠ "")) ∧
      (∀ c, InitChat tr model = .ok c →
        c.OldVqd = resp.Vqd ∧ c.NewVqd = resp.Vqd ∧ c.Messages = [] ∧
          c.Model = modelMap model) ∧
      (¬ (resp.StatusCode = 200 ∧ resp.Vqd ≠ "") → ∃ e, InitChat tr model = .error e) := by
  refine ⟨?_, ?_, ?_⟩
  · constructor
    · rintro ⟨c, hc⟩
      exact ((InitChat_ok_iff tr model resp h c).1 hc).1
    · intro hs
      exact ⟨_, (InitChat_ok_iff tr model resp h _).2 ⟨hs, rfl⟩⟩
  · intro c hc
    rw [((InitChat_ok_iff tr model resp h c).1 hc).2]
    exact ⟨rfl, rfl, rfl, rfl⟩
  · intro hs
    cases hi : InitChat tr model with
    | error e => exact ⟨e, rfl⟩
    | ok c => exact absurd ((InitChat_ok_iff tr model resp h c).1 hi).1 hs

theorem C10_init_witness :
    statusTransport statusRequest = .ok statusResponse ∧
      (((∃ c, InitChat statusTransport LlamaAlias = .ok c) ↔
          (statusResponse.StatusCode = 200 ∧ statusResponse.Vqd ≠ "")) ∧
        (∀ c, InitChat statusTransport LlamaAlias = .ok c →
          c.OldVqd = statusResponse.Vqd ∧ c.NewVqd = statusResponse.Vqd ∧ c.Messages = [] ∧
            c.Model = modelMap LlamaAlias) ∧
        (¬ (statusResponse.StatusCode = 200 ∧ statusResponse.Vqd ≠ "") →
          ∃ e, InitChat statusTransport LlamaAlias = .error e)) :=
  ⟨rfl, C10_init statusTransport LlamaAlias statusResponse rfl⟩

/-- C10 as stated fails: a handshake answer with status 204, which is in the
success range, and a non-empty token makes `InitChat` return an error. -/
theorem C10_counterexample :
    is2xx noContentResponse.StatusCode = true ∧ noContentResponse.Vqd ≠ "" ∧
      InitChat (fun _ => .ok noContentResponse) LlamaAlias =
        .error "204: Failed to initialize chat. 204 No Content" := by
  decide

end DuckChat
